import Mathlib

/-!
Verification of the core tracing algorithm of `Scripts/trace_downstream.py`
(Trace Downstream hydrology tool): D8 flow stepping, grid georeferencing,
elevation sampling and the downstream trace loop.

Numbers: map coordinates and cell sizes are modelled as rationals (`ℚ`),
raster indices as integers (`ℤ`, they can go negative while stepping).
Raster arrays are `List (List _)` read with numpy indexing semantics:
a negative index wraps from the end when it stays within `-n ≤ i`, and an
index outside `-n ≤ i < n` raises `IndexError`; fallible reads and the
trace loop itself are therefore `Except`-valued, and the unbounded
`while not done` loop is modelled with explicit fuel (the `Bool` paired
with the result is `true` when the loop really finished, `false` when the
fuel ran out while the loop was still running).
-/

namespace TraceDownstream

/-- Which array read failed: the flow-direction raster `fdr` or the
surface raster `fill`. -/
inductive TraceErr where
  | fdrIndexError : TraceErr
  | fillIndexError : TraceErr
deriving DecidableEq

/-- numpy index resolution for one axis of length `n`: `0 ≤ i < n` is used
as is, `-n ≤ i < 0` wraps to `n + i`, anything else is an `IndexError`
(`none`). -/
def npIndex (n : Nat) (i : Int) : Option Nat :=
  if 0 ≤ i then
    (if i < (n : Int) then some i.toNat else none)
  else
    (if 0 ≤ i + (n : Int) then some (i + (n : Int)).toNat else none)

/-- Read `g[row, col]` from a 2-D numpy array modelled as a list of rows. -/
def npGet2 {α : Type} (g : List (List α)) (row col : Int) : Option α :=
  match npIndex g.length row with
  | none => none
  | some r =>
    match g[r]? with
    | none => none
    | some rowList =>
      match npIndex rowList.length col with
      | none => none
      | some c => rowList[c]?

/-- The array `g` is a well-formed `rows × cols` raster. -/
def WF2 {α : Type} (g : List (List α)) (rows cols : Nat) : Prop :=
  g.length = rows ∧ ∀ r ∈ g, r.length = cols

/-- The D8 direction table of `move_to_next_pixel`: how a flow-direction
value updates `(row, col)`.  Any value other than the eight codes leaves
the cell unchanged (sink / indeterminate direction). -/
def move_direction (value : Int) (row col : Int) : Int × Int :=
  if value = 1 then (row, col + 1)
  else if value = 2 then (row + 1, col + 1)
  else if value = 4 then (row + 1, col)
  else if value = 8 then (row + 1, col - 1)
  else if value = 16 then (row, col - 1)
  else if value = 32 then (row - 1, col - 1)
  else if value = 64 then (row - 1, col)
  else if value = 128 then (row - 1, col + 1)
  else (row, col)

/-- `move_to_next_pixel(fdr, row, col)`: reads `fdr[row, col]` (which can
raise) and returns the downstream neighbour per the D8 table. -/
def move_to_next_pixel (fdr : List (List Int)) (row col : Int) :
    Except TraceErr (Int × Int) :=
  match npGet2 fdr row col with
  | none => .error .fdrIndexError
  | some value => .ok (move_direction value row col)

/-- `get_coord_x(col, cell_width, upper_left)`:
`upper_left.X + ((col-1) * cell_width) + (cell_width/2.0)`. -/
def get_coord_x (col : Int) (cell_width : ℚ) (upper_left_X : ℚ) : ℚ :=
  upper_left_X + (((col : ℚ) - 1) * cell_width) + (cell_width / 2)

/-- `get_coord_y(row, cell_height, upper_left)`:
`upper_left.Y - ((row - 1) * cell_height) - (cell_height/2.0)`. -/
def get_coord_y (row : Int) (cell_height : ℚ) (upper_left_Y : ℚ) : ℚ :=
  upper_left_Y - (((row : ℚ) - 1) * cell_height) - (cell_height / 2)

/-- Python `int(q)`: truncation toward zero. -/
def pyInt (q : ℚ) : Int :=
  if 0 ≤ q then ⌊q⌋ else ⌈q⌉

/-- `col = abs(int((upper_left.X - pnt[0]) / cell_width))` from the seed
placement in `trace_downstream_main`. -/
def point_to_col (upper_left_X px cell_width : ℚ) : Int :=
  |pyInt ((upper_left_X - px) / cell_width)|

/-- `row = abs(int((upper_left.Y - pnt[1]) / cell_height))` from the seed
placement in `trace_downstream_main`. -/
def point_to_row (upper_left_Y py cell_height : ℚ) : Int :=
  |pyInt ((upper_left_Y - py) / cell_height)|

/-- Georeferencing of the flow raster, as read off `fdr_raster` in
`trace_downstream_main`: `max_row = height`, `max_col = width`. -/
structure GridInfo where
  max_row : Nat
  max_col : Nat
  cell_width : ℚ
  cell_height : ℚ
  upper_left_X : ℚ
  upper_left_Y : ℚ
deriving DecidableEq

/-- One vertex of a trace polyline. -/
structure Vertex where
  x : ℚ
  y : ℚ
  z : ℚ
deriving DecidableEq

/-- The surface sample used for a vertex's Z: `fill[row, col]` when a
surface raster is supplied (and that read can raise), else `0`. -/
def sampleZ (fill? : Option (List (List ℚ))) (row col : Int) :
    Except TraceErr ℚ :=
  match fill? with
  | none => .ok 0
  | some fill =>
    match npGet2 fill row col with
    | none => .error .fillIndexError
    | some z => .ok z

/-- One iteration of the `while not done` loop: step downstream, sample Z
at the new cell, build the vertex for the new cell, then evaluate the
three done-checks.  Returns the new cell, the vertex emitted this
iteration, and the `done` flag. -/
def loopIter (fdr : List (List Int)) (fill? : Option (List (List ℚ)))
    (info : GridInfo) (row col : Int) :
    Except TraceErr ((Int × Int) × Vertex × Bool) :=
  match move_to_next_pixel fdr row col with
  | .error e => .error e
  | .ok (row2, col2) =>
    match sampleZ fill? row2 col2 with
    | .error e => .error e
    | .ok z =>
      .ok ((row2, col2),
        ⟨get_coord_x col2 info.cell_width info.upper_left_X,
         get_coord_y row2 info.cell_height info.upper_left_Y, z⟩,
        ((decide (row2 = row) && decide (col2 = col))
          || decide (row2 < 0) || decide ((info.max_row : Int) < row2)
          || decide (col2 < 0) || decide ((info.max_col : Int) < col2)))

/-- The trace loop with fuel, accumulating the `(cell, vertex)` pairs
emitted by the iterations.  The `Bool` is `true` when the loop exited via
its done-checks, `false` when the fuel ran out first. -/
def traceLoop (fdr : List (List Int)) (fill? : Option (List (List ℚ)))
    (info : GridInfo) :
    Nat → Int → Int → Except TraceErr (List ((Int × Int) × Vertex) × Bool)
  | 0, _, _ => .ok ([], false)
  | Nat.succ fuel, row, col =>
    match loopIter fdr fill? info row col with
    | .error e => .error e
    | .ok (cell2, v, done) =>
      if done then .ok ([(cell2, v)], true)
      else
        match traceLoop fdr fill? info fuel cell2.1 cell2.2 with
        | .error e => .error e
        | .ok (rest, fin) => .ok ((cell2, v) :: rest, fin)

/-- The per-seed body of `trace_downstream_main`: place the seed on the
grid, sample Z at the starting cell, emit the seed's original map
coordinates as the first vertex, then run the trace loop.  Result pairs
each vertex with the cell it was computed from. -/
def traceSeed (fdr : List (List Int)) (fill? : Option (List (List ℚ)))
    (info : GridInfo) (px py : ℚ) (fuel : Nat) :
    Except TraceErr (List ((Int × Int) × Vertex) × Bool) :=
  let col := point_to_col info.upper_left_X px info.cell_width
  let row := point_to_row info.upper_left_Y py info.cell_height
  match sampleZ fill? row col with
  | .error e => .error e
  | .ok z =>
    match traceLoop fdr fill? info fuel row col with
    | .error e => .error e
    | .ok (rest, fin) => .ok (((row, col), ⟨px, py, z⟩) :: rest, fin)

/-! ### The spec-side formulas for the georeferencing component -/

/-- The spec's cell-to-point X formula:
`X = upperLeft.X + (col − 1) × cellWidth + cellWidth / 2`. -/
def cellToPointX_spec (col : Int) (cell_width upper_left_X : ℚ) : ℚ :=
  upper_left_X + ((col : ℚ) - 1) * cell_width + cell_width / 2

/-- The spec's cell-to-point Y formula:
`Y = upperLeft.Y − (row − 1) × cellHeight − cellHeight / 2`. -/
def cellToPointY_spec (row : Int) (cell_height upper_left_Y : ℚ) : ℚ :=
  upper_left_Y - ((row : ℚ) - 1) * cell_height - cell_height / 2

/-! ### Helper lemmas -/

/-- Truncation toward zero commutes with absolute value. -/
theorem pyInt_abs (q : ℚ) : pyInt |q| = |pyInt q| := by
  unfold pyInt
  rcases le_or_lt 0 q with hq | hq
  · rw [abs_of_nonneg hq, if_pos hq, abs_of_nonneg]
    exact_mod_cast Int.floor_nonneg.mpr hq
  · rw [abs_of_neg hq, if_pos (by linarith), if_neg (not_le.mpr hq),
      Int.floor_neg, abs_of_nonpos]
    exact Int.ceil_le.mpr (by exact_mod_cast hq.le)

/-- Two cells are identical or adjacent: they differ by at most 1 in each
index. -/
def cellAdj (a b : Int × Int) : Prop :=
  (b.1 - a.1).natAbs ≤ 1 ∧ (b.2 - a.2).natAbs ≤ 1

/-- A D8 step moves at most one cell in each index. -/
theorem move_direction_adj (value row col : Int) :
    cellAdj (row, col) (move_direction value row col) := by
  unfold move_direction cellAdj
  repeat' split
  all_goals dsimp only
  all_goals constructor <;> omega

/-- Reading a well-formed `rows × cols` array at a nonnegative index past
the bounds is an `IndexError`. -/
theorem npGet2_oob {α : Type} (g : List (List α)) (rows cols : Nat)
    (row col : Int) (hwf : WF2 g rows cols) (hr : 0 ≤ row) (hc : 0 ≤ col)
    (hoob : (rows : Int) ≤ row ∨ (cols : Int) ≤ col) :
    npGet2 g row col = none := by
  obtain ⟨hlen, hrows⟩ := hwf
  rcases hoob with hoob | hoob
  · have h1 : npIndex g.length row = none := by
      rw [npIndex, hlen, if_pos hr, if_neg (by omega)]
    simp only [npGet2, h1]
  · by_cases hlt : row < (rows : Int)
    · have h1 : npIndex g.length row = some row.toNat := by
        rw [npIndex, hlen, if_pos hr, if_pos (by omega)]
      have hgetlt : row.toNat < g.length := by omega
      have h2 : g[row.toNat]? = some (g[row.toNat]) :=
        List.getElem?_eq_getElem hgetlt
      have hmem : g[row.toNat] ∈ g := List.getElem_mem hgetlt
      have h3 : npIndex (g[row.toNat]).length col = none := by
        rw [npIndex, hrows _ hmem, if_pos hc, if_neg (by omega)]
      simp only [npGet2, h1, h2, h3]
    · have h1 : npIndex g.length row = none := by
        rw [npIndex, hlen, if_pos hr, if_neg hlt]
      simp only [npGet2, h1]

/-- Reading a well-formed `rows × cols` array at an in-range cell
succeeds. -/
theorem npGet2_inbounds {α : Type} (g : List (List α)) (rows cols : Nat)
    (row col : Int) (hwf : WF2 g rows cols)
    (hr0 : 0 ≤ row) (hr1 : row < (rows : Int))
    (hc0 : 0 ≤ col) (hc1 : col < (cols : Int)) :
    ∃ a, npGet2 g row col = some a := by
  obtain ⟨hlen, hrows⟩ := hwf
  have hgetlt : row.toNat < g.length := by omega
  have hmem : g[row.toNat] ∈ g := List.getElem_mem hgetlt
  have hcollt : col.toNat < (g[row.toNat]).length := by
    rw [hrows _ hmem]; omega
  refine ⟨(g[row.toNat])[col.toNat], ?_⟩
  have h1 : npIndex g.length row = some row.toNat := by
    rw [npIndex, hlen, if_pos hr0, if_pos (by omega)]
  have h2 : g[row.toNat]? = some (g[row.toNat]) :=
    List.getElem?_eq_getElem hgetlt
  have h3 : npIndex (g[row.toNat]).length col = some col.toNat := by
    rw [npIndex, hrows _ hmem, if_pos hc0, if_pos (by omega)]
  have h4 : (g[row.toNat])[col.toNat]? = some ((g[row.toNat])[col.toNat]) :=
    List.getElem?_eq_getElem hcollt
  simp only [npGet2, h1, h2, h3, h4]

/-- What a successful loop iteration guarantees: the new cell is one D8
step (hence adjacent or identical) from the old one, the emitted vertex
is the cell-centre of the new cell with the Z sampled there, and the
`done` flag is exactly the disjunction of the sink check and the four
bounds checks. -/
theorem loopIter_ok (fdr : List (List Int)) (fill? : Option (List (List ℚ)))
    (info : GridInfo) (row col : Int) (cell2 : Int × Int) (v : Vertex)
    (done : Bool)
    (h : loopIter fdr fill? info row col = .ok (cell2, v, done)) :
    cellAdj (row, col) cell2 ∧
    v.x = get_coord_x cell2.2 info.cell_width info.upper_left_X ∧
    v.y = get_coord_y cell2.1 info.cell_height info.upper_left_Y ∧
    sampleZ fill? cell2.1 cell2.2 = .ok v.z ∧
    (done = true ↔ (cell2 = (row, col) ∨ cell2.1 < 0
      ∨ (info.max_row : Int) < cell2.1 ∨ cell2.2 < 0
      ∨ (info.max_col : Int) < cell2.2)) := by
  unfold loopIter at h
  cases hmv : move_to_next_pixel fdr row col with
  | error e => rw [hmv] at h; exact absurd h (by simp)
  | ok rc =>
    obtain ⟨row2, col2⟩ := rc
    rw [hmv] at h
    dsimp only at h
    cases hs : sampleZ fill? row2 col2 with
    | error e => rw [hs] at h; exact absurd h (by simp)
    | ok z =>
      rw [hs] at h
      simp only [Except.ok.injEq, Prod.mk.injEq] at h
      obtain ⟨hcell, hv, hdone⟩ := h
      subst hcell
      subst hv
      subst hdone
      refine ⟨?_, rfl, rfl, hs, ?_⟩
      · unfold move_to_next_pixel at hmv
        cases hg : npGet2 fdr row col with
        | none => rw [hg] at hmv; exact absurd hmv (by simp)
        | some value =>
          rw [hg] at hmv
          simp only [Except.ok.injEq] at hmv
          rw [← hmv]
          exact move_direction_adj value row col
      · simp only [Bool.or_eq_true, Bool.and_eq_true, decide_eq_true_eq,
          Prod.mk.injEq]
        tauto

/-- Everything a successful run of the trace loop guarantees about its
output: the emitted cells form an adjacency chain starting from the entry
cell, every emitted vertex carries its cell's centre coordinates and the
Z sampled at that cell, and a loop that finished emitted at least one
vertex. -/
theorem traceLoop_ok_props (fdr : List (List Int))
    (fill? : Option (List (List ℚ))) (info : GridInfo) :
    ∀ (fuel : Nat) (row col : Int) (l : List ((Int × Int) × Vertex))
      (b : Bool),
      traceLoop fdr fill? info fuel row col = .ok (l, b) →
      List.Chain cellAdj (row, col) (l.map Prod.fst) ∧
      (∀ cv ∈ l,
        cv.2.x = get_coord_x cv.1.2 info.cell_width info.upper_left_X ∧
        cv.2.y = get_coord_y cv.1.1 info.cell_height info.upper_left_Y ∧
        sampleZ fill? cv.1.1 cv.1.2 = .ok cv.2.z) ∧
      (b = true → l ≠ []) := by
  intro fuel
  induction fuel with
  | zero =>
    intro row col l b h
    simp only [traceLoop, Except.ok.injEq, Prod.mk.injEq] at h
    obtain ⟨hl, hb⟩ := h
    subst hl; subst hb
    exact ⟨List.Chain.nil, by simp, by simp⟩
  | succ n ih =>
    intro row col l b h
    rw [traceLoop] at h
    cases hit : loopIter fdr fill? info row col with
    | error e => rw [hit] at h; exact absurd h (by simp)
    | ok cvd =>
      obtain ⟨cell2, v, done⟩ := cvd
      rw [hit] at h
      dsimp only at h
      obtain ⟨hadj, hx, hy, hz, _⟩ := loopIter_ok _ _ _ _ _ _ _ _ hit
      by_cases hd : done = true
      · rw [if_pos hd] at h
        simp only [Except.ok.injEq, Prod.mk.injEq] at h
        obtain ⟨hl, hb⟩ := h
        subst hl; subst hb
        refine ⟨?_, ?_, fun _ => by simp⟩
        · simp only [List.map_cons, List.map_nil]
          exact List.Chain.cons hadj List.Chain.nil
        · intro cv hcv
          simp only [List.mem_singleton] at hcv
          subst hcv
          exact ⟨hx, hy, hz⟩
      · rw [if_neg hd] at h
        cases hrest : traceLoop fdr fill? info n cell2.1 cell2.2 with
        | error e => rw [hrest] at h; exact absurd h (by simp)
        | ok restfin =>
          obtain ⟨rest, fin⟩ := restfin
          rw [hrest] at h
          dsimp only at h
          simp only [Except.ok.injEq, Prod.mk.injEq] at h
          obtain ⟨hl, hb⟩ := h
          subst hl; subst hb
          obtain ⟨ihadj, ihall, _⟩ := ih cell2.1 cell2.2 rest fin hrest
          refine ⟨?_, ?_, fun _ => by simp⟩
          · simp only [List.map_cons]
            exact List.Chain.cons hadj (by simpa using ihadj)
          · intro cv hcv
            rcases List.mem_cons.mp hcv with hcv | hcv
            · subst hcv; exact ⟨hx, hy, hz⟩
            · exact ihall cv hcv

/-- Decomposition of a successful `traceSeed` run: the head vertex is the
seed's raw coordinates with the Z sampled at the starting cell, and the
tail is a successful trace-loop run from the starting cell. -/
theorem traceSeed_ok_elim (fdr : List (List Int))
    (fill? : Option (List (List ℚ))) (info : GridInfo) (px py : ℚ)
    (fuel : Nat) (l : List ((Int × Int) × Vertex)) (b : Bool)
    (h : traceSeed fdr fill? info px py fuel = .ok (l, b)) :
    ∃ z rest,
      sampleZ fill? (point_to_row info.upper_left_Y py info.cell_height)
          (point_to_col info.upper_left_X px info.cell_width) = .ok z ∧
      traceLoop fdr fill? info fuel
          (point_to_row info.upper_left_Y py info.cell_height)
          (point_to_col info.upper_left_X px info.cell_width)
        = .ok (rest, b) ∧
      l = ((point_to_row info.upper_left_Y py info.cell_height,
            point_to_col info.upper_left_X px info.cell_width),
           ⟨px, py, z⟩) :: rest := by
  unfold traceSeed at h
  dsimp only at h
  cases hsz : sampleZ fill?
      (point_to_row info.upper_left_Y py info.cell_height)
      (point_to_col info.upper_left_X px info.cell_width) with
  | error e => rw [hsz] at h; exact absurd h (by simp)
  | ok z =>
    rw [hsz] at h
    dsimp only at h
    cases hlp : traceLoop fdr fill? info fuel
        (point_to_row info.upper_left_Y py info.cell_height)
        (point_to_col info.upper_left_X px info.cell_width) with
    | error e => rw [hlp] at h; exact absurd h (by simp)
    | ok restfin =>
      obtain ⟨rest, fin⟩ := restfin
      rw [hlp] at h
      dsimp only at h
      simp only [Except.ok.injEq, Prod.mk.injEq] at h
      obtain ⟨hl, hb⟩ := h
      subst hl; subst hb
      exact ⟨z, rest, rfl, rfl, rfl⟩

/-- C1: for every cell whose flow-direction value is one of the eight
valid codes, `move_to_next_pixel` returns the neighbour one step in the
documented direction (1: col+1; 2: row+1,col+1; 4: row+1; 8: row+1,col-1;
16: col-1; 32: row-1,col-1; 64: row-1; 128: row-1,col+1); for every other
value it returns the same `(row, col)` unchanged. -/
theorem C1_move_to_next_pixel_direction_table
    (fdr : List (List Int)) (row col : Int) (v : Int)
    (h : npGet2 fdr row col = some v) :
    (v = 1 → move_to_next_pixel fdr row col = .ok (row, col + 1)) ∧
    (v = 2 → move_to_next_pixel fdr row col = .ok (row + 1, col + 1)) ∧
    (v = 4 → move_to_next_pixel fdr row col = .ok (row + 1, col)) ∧
    (v = 8 → move_to_next_pixel fdr row col = .ok (row + 1, col - 1)) ∧
    (v = 16 → move_to_next_pixel fdr row col = .ok (row, col - 1)) ∧
    (v = 32 → move_to_next_pixel fdr row col = .ok (row - 1, col - 1)) ∧
    (v = 64 → move_to_next_pixel fdr row col = .ok (row - 1, col)) ∧
    (v = 128 → move_to_next_pixel fdr row col = .ok (row - 1, col + 1)) ∧
    (v ∉ ([1, 2, 4, 8, 16, 32, 64, 128] : List Int) →
      move_to_next_pixel fdr row col = .ok (row, col)) := by
  unfold move_to_next_pixel move_direction
  rw [h]
  refine ⟨?_, ?_, ?_, ?_, ?_, ?_, ?_, ?_, ?_⟩ <;> intro hv
  · simp [hv]
  · simp [hv]
  · simp [hv]
  · simp [hv]
  · simp [hv]
  · simp [hv]
  · simp [hv]
  · simp [hv]
  · simp only [List.mem_cons, List.not_mem_nil, or_false, not_or] at hv
    obtain ⟨h1, h2, h4, h8, h16, h32, h64, h128⟩ := hv
    simp [h1, h2, h4, h8, h16, h32, h64, h128]

/-- Witness for C1 at a concrete grid: the single cell of `[[1]]` flows
east. -/
theorem C1_witness :
    move_to_next_pixel [[(1 : Int)]] 0 0 = .ok (0, 1) :=
  (C1_move_to_next_pixel_direction_table [[(1 : Int)]] 0 0 1 (by decide)).1 rfl

/-- C4: the cell-to-point conversion returns exactly
`X = upperLeft.X + (col - 1) * cellWidth + cellWidth/2` and
`Y = upperLeft.Y - (row - 1) * cellHeight - cellHeight/2`, the
`(col - 1)` / `(row - 1)` offset preserved exactly. -/
theorem C4_cell_to_point_formula (row col : Int)
    (cell_width cell_height upper_left_X upper_left_Y : ℚ) :
    get_coord_x col cell_width upper_left_X
        = cellToPointX_spec col cell_width upper_left_X ∧
    get_coord_y row cell_height upper_left_Y
        = cellToPointY_spec row cell_height upper_left_Y :=
  ⟨rfl, rfl⟩

/-- C5: the point-to-cell conversion computes
`col = trunc(abs((upperLeft.X - point.X) / cellWidth))` and
`row = trunc(abs((upperLeft.Y - point.Y) / cellHeight))` (the code's
`abs(int(...))` equals the spec's `trunc(abs(...))`), performs no bounds
check, and can return an out-of-range cell: at `upperLeft.Y = 100`,
`point.Y = 0`, `cellHeight = 10` it returns row `10`, outside any raster
of at most 10 rows. -/
theorem C5_point_to_cell_trunc_abs_unbounded :
    (∀ upper_left_X px cell_width : ℚ,
      point_to_col upper_left_X px cell_width
        = pyInt |(upper_left_X - px) / cell_width|) ∧
    (∀ upper_left_Y py cell_height : ℚ,
      point_to_row upper_left_Y py cell_height
        = pyInt |(upper_left_Y - py) / cell_height|) ∧
    point_to_row 100 0 10 = 10 := by
  refine ⟨?_, ?_, ?_⟩
  · intro ulX px cw
    rw [point_to_col, pyInt_abs]
  · intro ulY py ch
    rw [point_to_row, pyInt_abs]
  · rw [point_to_row]
    norm_num [pyInt]

/-- Eliminating a successful elevation sample when a surface raster is
supplied: the Z came from the numpy read of `fill` at that cell. -/
theorem sampleZ_some_elim (fill : List (List ℚ)) (row col : Int) (z : ℚ)
    (h : sampleZ (some fill) row col = .ok z) :
    npGet2 fill row col = some z := by
  unfold sampleZ at h
  dsimp only at h
  cases hg : npGet2 fill row col with
  | none => rw [hg] at h; exact absurd h (by simp)
  | some w =>
    rw [hg] at h
    dsimp only at h
    simp only [Except.ok.injEq] at h
    rw [h]

/-- Eliminating a successful elevation sample with no surface raster:
the Z is `0`. -/
theorem sampleZ_none_elim (row col : Int) (z : ℚ)
    (h : sampleZ none row col = .ok z) : z = 0 := by
  unfold sampleZ at h
  simp only [Except.ok.injEq] at h
  exact h.symm

/-- C2: an iteration of the trace loop sets the termination flag iff,
after stepping, the new cell equals the previous one or `row < 0` or
`row > rows` or `col < 0` or `col > cols` (strict, so `row = rows` does
not terminate), and the candidate vertex for the new cell is computed in
the same iteration, before those checks.  Two concrete runs pin the
boundary behaviour: on the north-flowing 1×1 grid `[[64]]` the loop
finishes having emitted the vertex of cell `(-1, 0)`, one step outside
the valid index range; on the south-flowing 1×1 grid `[[4]]` reaching
`row = rows = 1` does not terminate and the next iteration's raster read
raises. -/
theorem C2_loop_termination_and_late_emission :
    (∀ (fdr : List (List Int)) (fill? : Option (List (List ℚ)))
        (info : GridInfo) (row col : Int) (cell2 : Int × Int) (v : Vertex)
        (done : Bool),
      loopIter fdr fill? info row col = .ok (cell2, v, done) →
      ((done = true ↔ (cell2 = (row, col) ∨ cell2.1 < 0
          ∨ (info.max_row : Int) < cell2.1 ∨ cell2.2 < 0
          ∨ (info.max_col : Int) < cell2.2)) ∧
        v.x = get_coord_x cell2.2 info.cell_width info.upper_left_X ∧
        v.y = get_coord_y cell2.1 info.cell_height info.upper_left_Y)) ∧
    traceLoop [[(64 : Int)]] none ⟨1, 1, 1, 1, 0, 0⟩ 5 0 0
      = .ok ([((-1, 0), ⟨get_coord_x 0 1 0, get_coord_y (-1) 1 0, 0⟩)],
             true) ∧
    traceSeed [[(4 : Int)]] none ⟨1, 1, 1, 1, 0, 0⟩ 0 0 2
      = .error .fdrIndexError := by
  refine ⟨?_, ?_, ?_⟩
  · intro fdr fill? info row col cell2 v done h
    obtain ⟨_, hx, hy, _, hiff⟩ := loopIter_ok _ _ _ _ _ _ _ _ h
    exact ⟨hiff, hx, hy⟩
  · simp [traceLoop, loopIter, move_to_next_pixel, npGet2, npIndex,
      sampleZ, move_direction]
  · have hc : point_to_col (0 : ℚ) 0 1 = 0 := by
      rw [point_to_col]; norm_num [pyInt]
    have hr : point_to_row (0 : ℚ) 0 1 = 0 := by
      rw [point_to_row]; norm_num [pyInt]
    simp [traceSeed, hc, hr, sampleZ, traceLoop, loopIter,
      move_to_next_pixel, npGet2, npIndex, move_direction]

/-- Witness for C2 at a concrete iteration: on the all-sink grid `[[0]]`
the iteration from `(0, 0)` stays put and terminates. -/
theorem C2_witness :
    (true = true ↔ (((0 : Int), (0 : Int)) = (0, 0) ∨ (0 : Int) < 0
      ∨ (1 : Int) < 0 ∨ (0 : Int) < 0 ∨ (1 : Int) < 0)) ∧
    get_coord_x 0 1 0 = get_coord_x 0 1 0 ∧
    get_coord_y 0 1 0 = get_coord_y 0 1 0 := by
  have hiter : loopIter [[(0 : Int)]] none ⟨1, 1, 1, 1, 0, 0⟩ 0 0
      = .ok ((0, 0), ⟨get_coord_x 0 1 0, get_coord_y 0 1 0, 0⟩, true) := by
    simp [loopIter, move_to_next_pixel, npGet2, npIndex, sampleZ,
      move_direction]
  exact C2_loop_termination_and_late_emission.1 [[(0 : Int)]] none
    ⟨1, 1, 1, 1, 0, 0⟩ 0 0 (0, 0)
    ⟨get_coord_x 0 1 0, get_coord_y 0 1 0, 0⟩ true hiter

/-- C3: a produced trace starts with the seed's raw point (not snapped to
a cell centre), every later vertex is the cell-centre of its cell, and
consecutive vertices belong to identical or adjacent cells. -/
theorem C3_trace_invariants (fdr : List (List Int))
    (fill? : Option (List (List ℚ))) (info : GridInfo) (px py : ℚ)
    (fuel : Nat) (l : List ((Int × Int) × Vertex)) (b : Bool)
    (h : traceSeed fdr fill? info px py fuel = .ok (l, b)) :
    (∃ z rest, l = ((point_to_row info.upper_left_Y py info.cell_height,
                     point_to_col info.upper_left_X px info.cell_width),
                    ⟨px, py, z⟩) :: rest) ∧
    (∀ cv ∈ l.tail,
      cv.2.x = get_coord_x cv.1.2 info.cell_width info.upper_left_X ∧
      cv.2.y = get_coord_y cv.1.1 info.cell_height info.upper_left_Y) ∧
    List.Chain' cellAdj (l.map Prod.fst) := by
  obtain ⟨z, rest, hsz, hlp, hl⟩ := traceSeed_ok_elim _ _ _ _ _ _ _ _ h
  obtain ⟨hchain, hall, _⟩ := traceLoop_ok_props _ _ _ _ _ _ _ _ hlp
  subst hl
  refine ⟨⟨z, rest, rfl⟩, ?_, ?_⟩
  · intro cv hcv
    simp only [List.tail_cons] at hcv
    obtain ⟨hx, hy, _⟩ := hall cv hcv
    exact ⟨hx, hy⟩
  · simp only [List.map_cons]
    exact hchain

/-- Witness for C3: the chain invariant evaluated on the concrete trace
of the all-sink grid `[[0]]`. -/
theorem C3_witness :
    List.Chain' cellAdj
      (([(((0 : Int), (0 : Int)), Vertex.mk 0 0 0),
         ((0, 0), Vertex.mk (get_coord_x 0 1 0) (get_coord_y 0 1 0) 0)]).map
        Prod.fst) := by
  have hc : point_to_col (0 : ℚ) 0 1 = 0 := by
    rw [point_to_col]; norm_num [pyInt]
  have hr : point_to_row (0 : ℚ) 0 1 = 0 := by
    rw [point_to_row]; norm_num [pyInt]
  have htr : traceSeed [[(0 : Int)]] none ⟨1, 1, 1, 1, 0, 0⟩ 0 0 1
      = .ok ([(((0 : Int), (0 : Int)), Vertex.mk 0 0 0),
              ((0, 0), Vertex.mk (get_coord_x 0 1 0) (get_coord_y 0 1 0) 0)],
             true) := by
    simp [traceSeed, hc, hr, sampleZ, traceLoop, loopIter,
      move_to_next_pixel, npGet2, npIndex, move_direction]
  exact (C3_trace_invariants [[(0 : Int)]] none ⟨1, 1, 1, 1, 0, 0⟩ 0 0 1
    _ true htr).2.2

/-- Auxiliary for C6: on the two-cell cycle grid `[[1, 16]]` (cell
`(0,0)` flows east, cell `(0,1)` flows west) the loop is still running,
from either cell, whatever the fuel. -/
theorem C6_aux : ∀ fuel : Nat,
    (∃ l, traceLoop [[(1 : Int), 16]] none ⟨1, 2, 1, 1, 0, 0⟩ fuel 0 0
      = .ok (l, false)) ∧
    (∃ l, traceLoop [[(1 : Int), 16]] none ⟨1, 2, 1, 1, 0, 0⟩ fuel 0 1
      = .ok (l, false)) := by
  intro fuel
  induction fuel with
  | zero => exact ⟨⟨[], rfl⟩, ⟨[], rfl⟩⟩
  | succ n ih =>
    obtain ⟨⟨l1, h1⟩, ⟨l2, h2⟩⟩ := ih
    have hiterA : loopIter [[(1 : Int), 16]] none ⟨1, 2, 1, 1, 0, 0⟩ 0 0
        = .ok ((0, 1), ⟨get_coord_x 1 1 0, get_coord_y 0 1 0, 0⟩,
               false) := by
      simp [loopIter, move_to_next_pixel, npGet2, npIndex, sampleZ,
        move_direction]
    have hiterB : loopIter [[(1 : Int), 16]] none ⟨1, 2, 1, 1, 0, 0⟩ 0 1
        = .ok ((0, 0), ⟨get_coord_x 0 1 0, get_coord_y 0 1 0, 0⟩,
               false) := by
      simp [loopIter, move_to_next_pixel, npGet2, npIndex, sampleZ,
        move_direction]
    constructor
    · exact ⟨((0, 1), ⟨get_coord_x 1 1 0, get_coord_y 0 1 0, 0⟩) :: l2,
        by simp [traceLoop, hiterA, h2]⟩
    · exact ⟨((0, 0), ⟨get_coord_x 0 1 0, get_coord_y 0 1 0, 0⟩) :: l1,
        by simp [traceLoop, hiterB, h1]⟩

/-- C6: a flow-direction grid with a two-cell directional cycle exists on
which the trace loop never terminates: on `[[1, 16]]`, `(0,0)` steps to
`(0,1)` and `(0,1)` steps back to `(0,0)`, and for every fuel bound the
trace from the seed over `(0,0)` is still running (the
same-cell-as-previous check never fires because each step moves). -/
theorem C6_cycle_runs_forever :
    move_to_next_pixel [[(1 : Int), 16]] 0 0 = .ok (0, 1) ∧
    move_to_next_pixel [[(1 : Int), 16]] 0 1 = .ok (0, 0) ∧
    ∀ fuel : Nat, ∃ l,
      traceSeed [[(1 : Int), 16]] none ⟨1, 2, 1, 1, 0, 0⟩ 0 0 fuel
        = .ok (l, false) := by
  refine ⟨by simp [move_to_next_pixel, npGet2, npIndex, move_direction],
          by simp [move_to_next_pixel, npGet2, npIndex, move_direction],
          ?_⟩
  intro fuel
  obtain ⟨⟨l, hl⟩, _⟩ := C6_aux fuel
  refine ⟨((0, 0), ⟨0, 0, 0⟩) :: l, ?_⟩
  have hc : point_to_col (0 : ℚ) 0 1 = 0 := by
    rw [point_to_col]; norm_num [pyInt]
  have hr : point_to_row (0 : ℚ) 0 1 = 0 := by
    rw [point_to_row]; norm_num [pyInt]
  simp [traceSeed, hc, hr, sampleZ, hl]

/-- C7 (amended): a seed whose computed starting cell is out of the
grid's index range does not produce a degenerate trace — the first raster
read at that cell raises an `IndexError` (from the flow-direction read
when no surface raster is supplied, from the initial elevation sample
when one is), and no trace is emitted. -/
theorem C7_oob_start_raises (fdr : List (List Int)) (rows cols : Nat)
    (info : GridInfo) (px py : ℚ) (fuel : Nat) (fill : List (List ℚ))
    (hwf : WF2 fdr rows cols) (hwff : WF2 fill rows cols)
    (hfuel : 1 ≤ fuel)
    (hoob : (rows : Int) ≤ point_to_row info.upper_left_Y py info.cell_height
      ∨ (cols : Int) ≤ point_to_col info.upper_left_X px info.cell_width) :
    traceSeed fdr none info px py fuel = .error .fdrIndexError ∧
    traceSeed fdr (some fill) info px py fuel
      = .error .fillIndexError := by
  obtain ⟨k, rfl⟩ : ∃ k, fuel = k + 1 := ⟨fuel - 1, by omega⟩
  have hr0 : (0 : Int) ≤ point_to_row info.upper_left_Y py info.cell_height := by
    rw [point_to_row]; exact abs_nonneg _
  have hc0 : (0 : Int) ≤ point_to_col info.upper_left_X px info.cell_width := by
    rw [point_to_col]; exact abs_nonneg _
  have hnone := npGet2_oob fdr rows cols _ _ hwf hr0 hc0 hoob
  have hmove : move_to_next_pixel fdr
      (point_to_row info.upper_left_Y py info.cell_height)
      (point_to_col info.upper_left_X px info.cell_width)
      = .error .fdrIndexError := by
    simp only [move_to_next_pixel, hnone]
  have hfillnone := npGet2_oob fill rows cols _ _ hwff hr0 hc0 hoob
  have hsfill : sampleZ (some fill)
      (point_to_row info.upper_left_Y py info.cell_height)
      (point_to_col info.upper_left_X px info.cell_width)
      = .error .fillIndexError := by
    simp only [sampleZ, hfillnone]
  constructor
  · simp [traceSeed, sampleZ, traceLoop, loopIter, hmove]
  · simp [traceSeed, hsfill]

/-- Counterexample to C7 as stated: the seed `(-50, 0)` on a 1×1 grid has
computed starting cell `(0, 50)`, and instead of terminating with a
degenerate one-or-two-point trace the engine raises an `IndexError` on
the first flow-direction read. -/
theorem C7_counterexample :
    traceSeed [[(0 : Int)]] none ⟨1, 1, 1, 1, 0, 0⟩ (-50) 0 1
      = .error .fdrIndexError := by
  have hc : point_to_col (0 : ℚ) (-50) 1 = 50 := by
    rw [point_to_col]; norm_num [pyInt]
  have hr : point_to_row (0 : ℚ) 0 1 = 0 := by
    rw [point_to_row]; norm_num [pyInt]
  simp [traceSeed, hc, hr, sampleZ, traceLoop, loopIter,
    move_to_next_pixel, npGet2, npIndex]

/-- Witness for the amended C7 at a concrete out-of-range seed. -/
theorem C7_witness :
    traceSeed [[(0 : Int)]] none ⟨1, 1, 1, 1, 0, 0⟩ (-50) 0 1
      = .error .fdrIndexError ∧
    traceSeed [[(0 : Int)]] (some [[(3 : ℚ)]]) ⟨1, 1, 1, 1, 0, 0⟩ (-50) 0 1
      = .error .fillIndexError := by
  have hoob : ((1 : Nat) : Int) ≤ point_to_col (0 : ℚ) (-50) 1 := by
    rw [point_to_col]; norm_num [pyInt]
  exact C7_oob_start_raises [[(0 : Int)]] 1 1 ⟨1, 1, 1, 1, 0, 0⟩ (-50) 0 1
    [[(3 : ℚ)]] ⟨rfl, by decide⟩ ⟨rfl, by decide⟩ (by decide) (Or.inr hoob)

/-- C8 (amended): the elevation sampler itself never raises for an
in-range cell and raises exactly when an index reaches the grid size, but
the Trace Engine can call it on an out-of-range cell, because the initial
sample is taken at the unchecked starting cell and each loop sample at
the freshly stepped cell before the termination checks. -/
theorem C8_sampler_bounds :
    (∀ (fill : List (List ℚ)) (rows cols : Nat) (row col : Int),
      WF2 fill rows cols → 0 ≤ row → row < (rows : Int) → 0 ≤ col →
      col < (cols : Int) → ∃ z, sampleZ (some fill) row col = .ok z) ∧
    (∀ (fill : List (List ℚ)) (rows cols : Nat) (row col : Int),
      WF2 fill rows cols → 0 ≤ row → 0 ≤ col →
      ((rows : Int) ≤ row ∨ (cols : Int) ≤ col) →
      sampleZ (some fill) row col = .error .fillIndexError) := by
  constructor
  · intro fill rows cols row col hwf hr0 hr1 hc0 hc1
    obtain ⟨a, ha⟩ := npGet2_inbounds fill rows cols row col hwf hr0 hr1 hc0 hc1
    exact ⟨a, by simp only [sampleZ, ha]⟩
  · intro fill rows cols row col hwf hr0 hc0 hoob
    have hnone := npGet2_oob fill rows cols row col hwf hr0 hc0 hoob
    simp only [sampleZ, hnone]

/-- Counterexample to C8 as stated: on the south-flowing 1×1 grid `[[4]]`
with surface `[[5]]`, the loop steps from `(0,0)` to `(1,0)` and samples
the elevation there — an out-of-range cell — before any termination
check, so the sampler is reached out of range and raises. -/
theorem C8_counterexample :
    traceSeed [[(4 : Int)]] (some [[(5 : ℚ)]]) ⟨1, 1, 1, 1, 0, 0⟩ 0 0 1
      = .error .fillIndexError := by
  have hc : point_to_col (0 : ℚ) 0 1 = 0 := by
    rw [point_to_col]; norm_num [pyInt]
  have hr : point_to_row (0 : ℚ) 0 1 = 0 := by
    rw [point_to_row]; norm_num [pyInt]
  simp [traceSeed, hc, hr, sampleZ, traceLoop, loopIter,
    move_to_next_pixel, npGet2, npIndex, move_direction]

/-- Witness for the amended C8 on a concrete 1×1 surface raster. -/
theorem C8_witness :
    (∃ z, sampleZ (some [[(2 : ℚ)]]) 0 0 = .ok z) ∧
    sampleZ (some [[(2 : ℚ)]]) 1 0 = .error .fillIndexError :=
  ⟨C8_sampler_bounds.1 [[(2 : ℚ)]] 1 1 0 0 ⟨rfl, by decide⟩ (by decide)
      (by decide) (by decide) (by decide),
   C8_sampler_bounds.2 [[(2 : ℚ)]] 1 1 1 0 ⟨rfl, by decide⟩ (by decide)
      (by decide) (Or.inl (by decide))⟩

/-- C9: with a surface raster supplied, every vertex of a produced trace
has its Z equal to the surface grid's value at that vertex's cell; with
no surface raster, every vertex's Z is exactly `0`. -/
theorem C9_vertex_z_semantics :
    (∀ (fdr : List (List Int)) (fill : List (List ℚ)) (info : GridInfo)
        (px py : ℚ) (fuel : Nat) (l : List ((Int × Int) × Vertex))
        (b : Bool),
      traceSeed fdr (some fill) info px py fuel = .ok (l, b) →
      ∀ cv ∈ l, npGet2 fill cv.1.1 cv.1.2 = some cv.2.z) ∧
    (∀ (fdr : List (List Int)) (info : GridInfo) (px py : ℚ) (fuel : Nat)
        (l : List ((Int × Int) × Vertex)) (b : Bool),
      traceSeed fdr none info px py fuel = .ok (l, b) →
      ∀ cv ∈ l, cv.2.z = 0) := by
  constructor
  · intro fdr fill info px py fuel l b h cv hcv
    obtain ⟨z, rest, hsz, hlp, hl⟩ := traceSeed_ok_elim _ _ _ _ _ _ _ _ h
    obtain ⟨_, hall, _⟩ := traceLoop_ok_props _ _ _ _ _ _ _ _ hlp
    subst hl
    rcases List.mem_cons.mp hcv with hcv | hcv
    · subst hcv
      exact sampleZ_some_elim _ _ _ _ hsz
    · obtain ⟨_, _, hz⟩ := hall cv hcv
      exact sampleZ_some_elim _ _ _ _ hz
  · intro fdr info px py fuel l b h cv hcv
    obtain ⟨z, rest, hsz, hlp, hl⟩ := traceSeed_ok_elim _ _ _ _ _ _ _ _ h
    obtain ⟨_, hall, _⟩ := traceLoop_ok_props _ _ _ _ _ _ _ _ hlp
    subst hl
    rcases List.mem_cons.mp hcv with hcv | hcv
    · subst hcv
      exact sampleZ_none_elim _ _ _ hsz
    · obtain ⟨_, _, hz⟩ := hall cv hcv
      exact sampleZ_none_elim _ _ _ hz

/-- Witness for C9: on the all-sink grid `[[0]]` with surface `[[7]]`,
the first vertex's Z is the surface value at the starting cell. -/
theorem C9_witness : npGet2 [[(7 : ℚ)]] 0 0 = some 7 := by
  have hc : point_to_col (0 : ℚ) 0 1 = 0 := by
    rw [point_to_col]; norm_num [pyInt]
  have hr : point_to_row (0 : ℚ) 0 1 = 0 := by
    rw [point_to_row]; norm_num [pyInt]
  have htr : traceSeed [[(0 : Int)]] (some [[(7 : ℚ)]]) ⟨1, 1, 1, 1, 0, 0⟩
      0 0 1
      = .ok ([(((0 : Int), (0 : Int)), Vertex.mk 0 0 7),
              ((0, 0),
               Vertex.mk (get_coord_x 0 1 0) (get_coord_y 0 1 0) 7)],
             true) := by
    simp [traceSeed, hc, hr, sampleZ, traceLoop, loopIter,
      move_to_next_pixel, npGet2, npIndex, move_direction]
  exact (C9_vertex_z_semantics.1 [[(0 : Int)]] [[(7 : ℚ)]]
    ⟨1, 1, 1, 1, 0, 0⟩ 0 0 1 _ true htr) (((0 : Int), (0 : Int)),
      Vertex.mk 0 0 7) (by simp)

/-- C10: a trace whose loop completed (without raising and without
running out of fuel) has at least two vertices: the loop body always
executes at least once, so a one-vertex trace is never produced. -/
theorem C10_completed_trace_min_length (fdr : List (List Int))
    (fill? : Option (List (List ℚ))) (info : GridInfo) (px py : ℚ)
    (fuel : Nat) (l : List ((Int × Int) × Vertex))
    (h : traceSeed fdr fill? info px py fuel = .ok (l, true)) :
    2 ≤ l.length := by
  obtain ⟨z, rest, hsz, hlp, hl⟩ := traceSeed_ok_elim _ _ _ _ _ _ _ _ h
  obtain ⟨_, _, hne⟩ := traceLoop_ok_props _ _ _ _ _ _ _ _ hlp
  subst hl
  have hne2 := hne rfl
  cases rest with
  | nil => exact absurd rfl hne2
  | cons a t => simp only [List.length_cons]; omega

/-- Witness for C10: the all-sink grid `[[0]]` produces exactly the
seed vertex and the centre of its cell. -/
theorem C10_witness :
    2 ≤ ([(((0 : Int), (0 : Int)), Vertex.mk 0 0 0),
          ((0, 0), Vertex.mk (get_coord_x 0 1 0) (get_coord_y 0 1 0) 0)]
         : List ((Int × Int) × Vertex)).length := by
  have hc : point_to_col (0 : ℚ) 0 1 = 0 := by
    rw [point_to_col]; norm_num [pyInt]
  have hr : point_to_row (0 : ℚ) 0 1 = 0 := by
    rw [point_to_row]; norm_num [pyInt]
  have htr : traceSeed [[(0 : Int)]] none ⟨1, 1, 1, 1, 0, 0⟩ 0 0 1
      = .ok ([(((0 : Int), (0 : Int)), Vertex.mk 0 0 0),
              ((0, 0),
               Vertex.mk (get_coord_x 0 1 0) (get_coord_y 0 1 0) 0)],
             true) := by
    simp [traceSeed, hc, hr, sampleZ, traceLoop, loopIter,
      move_to_next_pixel, npGet2, npIndex, move_direction]
  exact C10_completed_trace_min_length [[(0 : Int)]] none ⟨1, 1, 1, 1, 0, 0⟩
    0 0 1 _ htr

end TraceDownstream
